import Mathlib

/-!
# MyVault — verification of the crypto/security core

Shallow embedding of the TypeScript sources of the MyVault repository:

* `src/storage/encryptedStorage.ts` — authenticated encryption engine
  (`encryptData` / `decryptData`, HMAC construction, HKDF-like subkey
  derivation, HMAC-counter keystream, 3 XOR rounds, tag verification);
* `src/security/bruteForce.ts` — brute-force guard state machine
  (`checkBruteForce` / `recordFailedAttempt`);
* `src/security/useBiometric.ts` and the repository's guarded variant of the
  same hook — biometric key gate;
* `src/vault/VaultRepository.ts` — name/content validation and `create`.

Byte strings are modelled as `List Nat` (the decoded byte sequences; the
Base64 transport encoding done by `btoa`/`atob` in the source is a platform
bijection between byte arrays and their Base64 strings, and all claims are
stated over the decoded bytes).  JavaScript timestamps are modelled as `Int`.
The underlying SHA-256 digest is provided by the platform (`expo-crypto`),
not by the repository, so the development is parametrised over the digest
function; witnesses instantiate it with a small concrete function.
-/

/-- The platform digest used by `hmacSha256` in the source
(`Crypto.digestStringAsync` with SHA-256).  It is external to the repository,
so the development is parametrised over it: a function from a byte sequence
to its 32-byte digest (the source's Base64 round-trip around the digest call
is deterministic and is absorbed into the function). -/
abbrev HashFn := List Nat → List Nat

/-- UTF-8 bytes of the static string "hmac-key" (HMAC-subkey info). -/
def hmacKeyInfoBytes : List Nat := [104, 109, 97, 99, 45, 107, 101, 121]

/-- UTF-8 bytes of the static string "encryption-key" (HKDF info). -/
def encryptionKeyInfoBytes : List Nat :=
  [101, 110, 99, 114, 121, 112, 116, 105, 111, 110, 45, 107, 101, 121]

/-- `hmacSha256` from `src/storage/encryptedStorage.ts`:
`H((key ⊕ opad) ++ H((key ⊕ ipad) ++ message))` with 64-byte block size,
an over-long key pre-hashed, and the key zero-padded to the block size. -/
def hmacSha256 (H : HashFn) (key message : List Nat) : List Nat :=
  let keyBytes := if 64 < key.length then H key else key
  let paddedKey := keyBytes ++ List.replicate (64 - keyBytes.length) 0
  let ipad := paddedKey.map (fun b => b ^^^ 0x36)
  let opad := paddedKey.map (fun b => b ^^^ 0x5c)
  H (opad ++ H (ipad ++ message))

/-- `deriveEncryptionKey`: HKDF-like extract (IV as salt) then expand with
the info string "encryption-key" followed by the byte `0x01`. -/
def deriveEncryptionKey (H : HashFn) (masterKey iv : List Nat) : List Nat :=
  let prk := hmacSha256 H iv masterKey
  hmacSha256 H prk (encryptionKeyInfoBytes ++ [0x01])

/-- `xorBytes`: `result[i] = a[i] ^ b[i % b.length]`, one output byte per
byte of `a` (the source loops over the indices of `a`). -/
def xorBytes (a b : List Nat) : List Nat :=
  (List.range a.length).map (fun i => a.getD i 0 ^^^ b.getD (i % b.length) 0)

/-- Big-endian 4-byte encoding of a block counter, as built byte-by-byte in
`generateKeystream` and `deriveKey`. -/
def be32 (i : Nat) : List Nat :=
  [(i >>> 24) &&& 0xff, (i >>> 16) &&& 0xff, (i >>> 8) &&& 0xff, i &&& 0xff]

/-- `generateKeystream`: HMAC in counter mode.  `ceil(length/32)` blocks
`HMAC(key, iv ++ BE32(i))` are concatenated and the result truncated to
`length` (each digest is 32 bytes for the real SHA-256 backend). -/
def generateKeystream (H : HashFn) (key iv : List Nat) (length : Nat) : List Nat :=
  let numBlocks := (length + 31) / 32
  (((List.range numBlocks).map (fun i => hmacSha256 H key (iv ++ be32 i))).flatten).take length

/-- `EncryptedData` from `encryptedStorage.ts`, with the Base64 fields held
as their decoded byte sequences. -/
structure EncryptedData where
  ciphertext : List Nat
  iv : List Nat
  hmac : List Nat
  timestamp : Int
  deriving DecidableEq

/-- The error outcomes thrown by `encryptData` / `decryptData`:
"Data too large…", "No encryption key available…",
"Integrity check failed…". -/
inductive EncError where
  | dataTooLarge
  | noKey
  | integrityCheckFailed
  deriving DecidableEq

/-- 10 MiB ceiling (`MAX_DATA_SIZE`). -/
def MAX_DATA_SIZE : Nat := 10 * 1024 * 1024

/-- One round of the transform in `encryptData` / `decryptData`: derive the
round key `HMAC(encryptionKey, [round])`, generate a keystream of the data's
length, and XOR it in.  Encryption folds this over rounds `0,1,2`;
decryption over `2,1,0`. -/
def encryptRound (H : HashFn) (encryptionKey ivBytes : List Nat)
    (data : List Nat) (round : Nat) : List Nat :=
  let roundKey := hmacSha256 H encryptionKey [round]
  let keystream := generateKeystream H roundKey ivBytes data.length
  xorBytes data keystream

/-- The integrity tag of `encryptData`:
`HMAC(HMAC(key, "hmac-key"), iv ++ ciphertext)`. -/
def hmacTag (H : HashFn) (keyBytes ivBytes ciphertextBytes : List Nat) : List Nat :=
  hmacSha256 H (hmacSha256 H keyBytes hmacKeyInfoBytes) (ivBytes ++ ciphertextBytes)

/-- `encryptData` from `encryptedStorage.ts`.  The session-key cache lookup
(`getMemoryKey(MEMORY_KEYS.DERIVED_KEY)`) is the `cachedKey` argument, the
random IV drawn by `generateIV` is the `iv` argument, and `Date.now()` is
`now`; the plaintext is its UTF-8 byte sequence. -/
def encryptData (H : HashFn) (cachedKey : Option (List Nat)) (iv : List Nat)
    (now : Int) (plaintextBytes : List Nat) : Except EncError EncryptedData :=
  if MAX_DATA_SIZE < plaintextBytes.length then
    .error .dataTooLarge
  else
    match cachedKey with
    | none => .error .noKey
    | some keyBytes =>
      let ivBytes := iv
      let encryptionKey := deriveEncryptionKey H keyBytes ivBytes
      let encrypted := [0, 1, 2].foldl (encryptRound H encryptionKey ivBytes) plaintextBytes
      let hmacKey := hmacSha256 H keyBytes hmacKeyInfoBytes
      let hmac := hmacSha256 H hmacKey (ivBytes ++ encrypted)
      .ok { ciphertext := encrypted, iv := iv, hmac := hmac, timestamp := now }

/-- The constant-time comparison loop of `decryptData`
(`hmacMatch |= computed[i] ^ provided[i]` over `i < computed.length`),
instrumented with the number of loop iterations it performs:
first component is the final `hmacMatch`, second the iteration count. -/
def hmacCompareLoop (computed provided : List Nat) : Nat × Nat :=
  (List.range computed.length).foldl
    (fun acc i => (acc.1 ||| (computed.getD i 0 ^^^ provided.getD i 0), acc.2 + 1))
    (0, 0)

/-- `decryptData` from `encryptedStorage.ts`: recompute the tag over
`iv ++ ciphertext`, reject on length mismatch, then run the comparison
loop, and only on a verified tag invert the three rounds. -/
def decryptData (H : HashFn) (cachedKey : Option (List Nat))
    (encrypted : EncryptedData) : Except EncError (List Nat) :=
  match cachedKey with
  | none => .error .noKey
  | some keyBytes =>
    let ivBytes := encrypted.iv
    let ciphertextBytes := encrypted.ciphertext
    let hmacData := ivBytes ++ ciphertextBytes
    let hmacKey := hmacSha256 H keyBytes hmacKeyInfoBytes
    let computedHmac := hmacSha256 H hmacKey hmacData
    let providedHmac := encrypted.hmac
    if computedHmac.length ≠ providedHmac.length then
      .error .integrityCheckFailed
    else if (hmacCompareLoop computedHmac providedHmac).1 ≠ 0 then
      .error .integrityCheckFailed
    else
      let encryptionKey := deriveEncryptionKey H keyBytes ivBytes
      .ok ([2, 1, 0].foldl (encryptRound H encryptionKey ivBytes) ciphertextBytes)

/-- Number of byte-comparison iterations `decryptData` executes for a given
pair of computed/provided tags: the loop is only reached when the length
check passes, so a length mismatch performs zero comparisons. -/
def tagCompareWork (computed provided : List Nat) : Nat :=
  if computed.length ≠ provided.length then 0 else (hmacCompareLoop computed provided).2

/-- Modelled from the spec: "mismatched lengths are rejected without leaking
length via early return — both branches execute the same amount of
comparison work up to the max length", i.e. the claimed comparison work is
`max` of the two tag lengths whether or not the lengths agree. -/
def specTagCompareWork (computed provided : List Nat) : Nat :=
  max computed.length provided.length

/-- Flip bit `k` of the byte at index `i` (an out-of-range index leaves the
list unchanged). -/
def flipBit (l : List Nat) (i k : Nat) : List Nat :=
  l.set i (l.getD i 0 ^^^ 2 ^ k)

/-- Blob with one ciphertext bit flipped. -/
def flipCiphertextBit (b : EncryptedData) (i k : Nat) : EncryptedData :=
  { b with ciphertext := flipBit b.ciphertext i k }

/-- Blob with one IV bit flipped. -/
def flipIvBit (b : EncryptedData) (i k : Nat) : EncryptedData :=
  { b with iv := flipBit b.iv i k }

/-- Blob with one tag bit flipped. -/
def flipHmacBit (b : EncryptedData) (i k : Nat) : EncryptedData :=
  { b with hmac := flipBit b.hmac i k }

/-- Extract the blob from a successful encryption (dummy on error); used to
state closed witnesses. -/
def blobOf (e : Except EncError EncryptedData) : EncryptedData :=
  match e with
  | .ok b => b
  | .error _ => { ciphertext := [], iv := [], hmac := [], timestamp := 0 }

/-- A small executable stand-in digest used only by witnesses: 32 bytes,
each a position-seeded polynomial fold of the message. -/
def sampleHash : HashFn := fun m =>
  (List.range 32).map (fun i => (m.foldl (fun a c => (a * 131 + c) % 997) (i + 13)) % 256)

/-- 32-byte witness session key. -/
def sampleKey : List Nat := List.range 32

/-- 16-byte witness IV. -/
def sampleIv : List Nat := (List.range 16).map (fun i => 16 * i + 1)

/-- Witness plaintext bytes. -/
def samplePlain : List Nat := [104, 105, 33]

/-! ## Brute-force guard (`src/security/bruteForce.ts`) -/

/-- `AttemptData` as persisted under `vault_login_attempts`;
`lockedUntil : null` is `none`. -/
structure AttemptData where
  count : Nat
  firstAttemptAt : Int
  lastAttemptAt : Int
  lockedUntil : Option Int
  deriving DecidableEq

/-- `BruteForceCheckResult` returned by `checkBruteForce`. -/
structure BruteForceCheckResult where
  allowed : Bool
  remainingAttempts : Nat
  lockoutSecondsRemaining : Option Int
  requiredDelayMs : Int
  deriving DecidableEq

/-- `MAX_ATTEMPTS_BEFORE_LOCKOUT`. -/
def MAX_ATTEMPTS_BEFORE_LOCKOUT : Nat := 5

/-- `LOCKOUT_DURATION_MS` (5 minutes). -/
def LOCKOUT_DURATION_MS : Int := 5 * 60 * 1000

/-- `ATTEMPT_RESET_WINDOW_MS` (30 minutes). -/
def ATTEMPT_RESET_WINDOW_MS : Int := 30 * 60 * 1000

/-- JavaScript truthiness of the `lockedUntil` field as used in
`data.lockedUntil && …`: `null` and `0` are falsy. -/
def lockedUntilTruthy (lu : Option Int) : Bool :=
  match lu with
  | none => false
  | some v => v != 0

/-- `calculateBackoffDelay`: 0 for at most one attempt, otherwise
`min(1000 * 2^(count-2), 30000)` milliseconds. -/
def calculateBackoffDelay (attemptCount : Nat) : Int :=
  if attemptCount ≤ 1 then 0
  else min ((1000 : Int) * 2 ^ (attemptCount - 2)) 30000

/-- The tail of `checkBruteForce` after the window and lockout checks: the
exponential-backoff decision, computed from the loaded record (`data`),
paired with the store contents at that point. -/
def checkBackoff (now : Int) (data : AttemptData) (store : Option AttemptData) :
    BruteForceCheckResult × Option AttemptData :=
  let requiredDelayMs := calculateBackoffDelay data.count
  let timeSinceLastAttempt := now - data.lastAttemptAt
  let remainingDelay := max 0 (requiredDelayMs - timeSinceLastAttempt)
  if 0 < remainingDelay then
    ({ allowed := false,
       remainingAttempts := MAX_ATTEMPTS_BEFORE_LOCKOUT - data.count,
       lockoutSecondsRemaining := none,
       requiredDelayMs := remainingDelay }, store)
  else
    ({ allowed := true,
       remainingAttempts := MAX_ATTEMPTS_BEFORE_LOCKOUT - data.count,
       lockoutSecondsRemaining := none,
       requiredDelayMs := 0 }, store)

/-- `checkBruteForce`.  The persisted `vault_login_attempts` record is
passed in and the (possibly updated) record is returned alongside the
result: `none` models an absent record; `clearAttempts` is deletion.
`Math.max(0, MAX - count)` on JavaScript numbers is `Nat` subtraction. -/
def checkBruteForce (now : Int) (store : Option AttemptData) :
    BruteForceCheckResult × Option AttemptData :=
  match store with
  | none =>
    ({ allowed := true, remainingAttempts := MAX_ATTEMPTS_BEFORE_LOCKOUT,
       lockoutSecondsRemaining := none, requiredDelayMs := 0 }, none)
  | some data =>
    if ATTEMPT_RESET_WINDOW_MS < now - data.firstAttemptAt then
      ({ allowed := true, remainingAttempts := MAX_ATTEMPTS_BEFORE_LOCKOUT,
         lockoutSecondsRemaining := none, requiredDelayMs := 0 }, none)
    else
      match data.lockedUntil with
      | some lu =>
        if lu ≠ 0 then
          if now < lu then
            ({ allowed := false, remainingAttempts := 0,
               lockoutSecondsRemaining := some ((lu - now + 999) / 1000),
               requiredDelayMs := lu - now }, some data)
          else
            checkBackoff now data (some { data with lockedUntil := none })
        else
          checkBackoff now data (some data)
      | none =>
        checkBackoff now data (some data)

/-- `recordFailedAttempt`: the `AttemptData` written back to storage (the
source always saves `newData`), together with the returned
`(attemptCount, isLockedOut, lockoutSecondsRemaining)` triple. -/
def recordFailedAttempt (now : Int) (store : Option AttemptData) :
    AttemptData × (Nat × Bool × Option Int) :=
  let newData : AttemptData :=
    match store with
    | none =>
      { count := 1, firstAttemptAt := now, lastAttemptAt := now, lockedUntil := none }
    | some existingData =>
      if ATTEMPT_RESET_WINDOW_MS < now - existingData.firstAttemptAt then
        { count := 1, firstAttemptAt := now, lastAttemptAt := now, lockedUntil := none }
      else
        let newCount := existingData.count + 1
        { count := newCount,
          firstAttemptAt := existingData.firstAttemptAt,
          lastAttemptAt := now,
          lockedUntil :=
            if MAX_ATTEMPTS_BEFORE_LOCKOUT ≤ newCount then some (now + LOCKOUT_DURATION_MS)
            else none }
  let isLockedOut := newData.lockedUntil != none
  (newData, (newData.count, isLockedOut,
    if isLockedOut then some (LOCKOUT_DURATION_MS / 1000) else none))

/-- Modelled from the spec: "compute `delay = min(30s, 1000ms × 2^(count-2))`
for `count > 1`, else 0" — the backoff formula in the spec's words, to be
compared with the source's `calculateBackoffDelay`. -/
def specBackoffDelay (count : Nat) : Int :=
  if 1 < count then min 30000 ((1000 : Int) * 2 ^ (count - 2)) else 0

/-! ## Biometric key gate (`src/security/useBiometric.ts` and the
repository's guarded variant of the same hook) -/

/-- `LocalAuthentication.AuthenticationType` values consulted by the hook. -/
inductive AuthenticationType where
  | fingerprint
  | facialRecognition
  | iris
  deriving DecidableEq

/-- `BiometricConfig.type` (biometric.types.ts). -/
inductive BiometricType where
  | fingerprint
  | face
  | iris
  | none
  deriving DecidableEq

/-- `BiometricConfig` (biometric.types.ts), persisted under
`vault_biometric_config`. -/
structure BiometricConfig where
  enabled : Bool
  type : BiometricType
  lastUsed : Option Int
  deriving DecidableEq

/-- Platform responses and cache state observed during one biometric call:
hardware/enrollment checks, the outcome of the live challenge, and the
session key currently in the memory cache. -/
structure BiometricEnv where
  hasHardware : Bool
  isEnrolled : Bool
  supportedTypes : List AuthenticationType
  authSucceeds : Bool
  memoryKey : Option (List Nat)
  deriving DecidableEq

/-- The slice of the persisted secure store the gate touches:
`vault_biometric_key` and `vault_biometric_config`. -/
structure BiometricStore where
  biometricKey : Option (List Nat)
  biometricConfig : Option BiometricConfig
  deriving DecidableEq

/-- The display-type selection in `enableBiometric`: face, then
fingerprint, then iris, else none. -/
def pickBiometricType (supported : List AuthenticationType) : BiometricType :=
  if supported.contains .facialRecognition then .face
  else if supported.contains .fingerprint then .fingerprint
  else if supported.contains .iris then .iris
  else .none

/-- `authenticate` of `src/src/security/useBiometric.ts` (no in-flight
guard): on a successful challenge it bumps `lastUsed` on the stored config
when one exists; on failure it leaves storage untouched. -/
def authenticateNoGuard (env : BiometricEnv) (now : Int) (store : BiometricStore) :
    Bool × BiometricStore :=
  if env.authSucceeds then
    match store.biometricConfig with
    | some c => (true, { store with biometricConfig := some { c with lastUsed := some now } })
    | none => (true, store)
  else (false, store)

/-- `enableBiometric` of `src/src/security/useBiometric.ts`.  The
`otherOperationInFlight` argument states whether another biometric
operation is still pending; this implementation never consults it. -/
def enableBiometricNoGuard (_otherOperationInFlight : Bool) (env : BiometricEnv)
    (now : Int) (store : BiometricStore) : Bool × BiometricStore :=
  if !env.hasHardware || !env.isEnrolled then (false, store)
  else
    match env.memoryKey with
    | none => (false, store)
    | some derivedKey =>
      match authenticateNoGuard env now store with
      | (false, store1) => (false, store1)
      | (true, store1) =>
        let ty := pickBiometricType env.supportedTypes
        let store2 := { store1 with biometricKey := some derivedKey }
        (true, { store2 with
          biometricConfig := some { enabled := true, type := ty, lastUsed := some now } })

/-- `authenticate` of the repository's guarded `useBiometric` variant: a
call made while `operationInProgressRef.current` is set returns `false`
immediately and leaves storage untouched; otherwise it behaves like the
unguarded one (reading the current config from storage). -/
def authenticateGuarded (operationInProgress : Bool) (env : BiometricEnv)
    (now : Int) (store : BiometricStore) : Bool × BiometricStore :=
  if operationInProgress then (false, store)
  else if env.authSucceeds then
    match store.biometricConfig with
    | some c => (true, { store with biometricConfig := some { c with lastUsed := some now } })
    | none => (true, store)
  else (false, store)

/-- `enableBiometric` of the repository's guarded `useBiometric` variant:
rejected immediately when an operation is already in progress; otherwise it
sets the in-flight flag and proceeds (its inner `authenticate` call
therefore sees the flag already set). -/
def enableBiometricGuarded (operationInProgress : Bool) (env : BiometricEnv)
    (now : Int) (store : BiometricStore) : Bool × BiometricStore :=
  if operationInProgress then (false, store)
  else if !env.hasHardware then (false, store)
  else if !env.isEnrolled then (false, store)
  else
    match env.memoryKey with
    | none => (false, store)
    | some derivedKey =>
      match authenticateGuarded true env now store with
      | (false, store1) => (false, store1)
      | (true, store1) =>
        let ty := pickBiometricType env.supportedTypes
        let store2 := { store1 with biometricKey := some derivedKey }
        (true, { store2 with
          biometricConfig := some { enabled := true, type := ty, lastUsed := some now } })

/-- Favourable environment for the C9 failing input: hardware present,
biometrics enrolled, challenge succeeds, session key in the cache. -/
def c9Env : BiometricEnv :=
  { hasHardware := true, isEnrolled := true, supportedTypes := [.fingerprint],
    authSucceeds := true, memoryKey := some (List.range 32) }

/-- Empty biometric store for the C9 failing input. -/
def c9Store : BiometricStore := { biometricKey := none, biometricConfig := none }

/-! ## Vault repository (`src/vault/VaultRepository.ts`) -/

/-- The whitespace class removed by JavaScript `String.prototype.trim`
(WhiteSpace ∪ LineTerminator code points). -/
def isJsWhitespace (c : Nat) : Bool :=
  c == 9 || c == 10 || c == 11 || c == 12 || c == 13 || c == 32 ||
  c == 160 || c == 0x1680 || (decide (0x2000 ≤ c) && decide (c ≤ 0x200A)) ||
  c == 0x2028 || c == 0x2029 || c == 0x202F || c == 0x205F || c == 0x3000 ||
  c == 0xFEFF

/-- The class removed by `validateName`'s `replace(/[\x00-\x1F\x7F]/g, '')`. -/
def isStrippedControl (c : Nat) : Bool :=
  decide (c ≤ 0x1F) || c == 0x7F

/-- JavaScript `trim` over a string's UTF-16 code units. -/
def jsTrim (s : List Nat) : List Nat :=
  ((s.dropWhile (fun c => isJsWhitespace c)).reverse.dropWhile
    (fun c => isJsWhitespace c)).reverse

/-- `MAX_NAME_LENGTH`. -/
def MAX_NAME_LENGTH : Nat := 256

/-- `MAX_CONTENT_LENGTH` (10 MiB, compared against the string length). -/
def MAX_CONTENT_LENGTH : Nat := 10 * 1024 * 1024

/-- Validation errors thrown by `VaultRepository` (plus propagation of the
encryption layer's errors). -/
inductive VaultError where
  | nameRequired
  | nameEmpty
  | nameTooLong
  | contentTooLarge
  | encryptionFailed (e : EncError)
  deriving DecidableEq

/-- `validateName`: a falsy (empty) name is rejected, the name is trimmed,
the empty or over-long trimmed name is rejected, and control characters are
stripped from the accepted trimmed name. -/
def validateName (name : List Nat) : Except VaultError (List Nat) :=
  if name.isEmpty then .error .nameRequired
  else
    let trimmed := jsTrim name
    if trimmed.length = 0 then .error .nameEmpty
    else if MAX_NAME_LENGTH < trimmed.length then .error .nameTooLong
    else .ok (trimmed.filter (fun c => !isStrippedControl c))

/-- `validateContent`: rejects content longer than 10 MiB. -/
def validateContent (content : List Nat) : Except VaultError Unit :=
  if MAX_CONTENT_LENGTH < content.length then .error .contentTooLarge else .ok ()

/-- Surrogate-pair decoding done by `TextEncoder` on a UTF-16 code-unit
sequence (lone surrogates become U+FFFD). -/
def utf16ToCodePoints : List Nat → List Nat
  | [] => []
  | [c1] =>
    if 0xD800 ≤ c1 ∧ c1 ≤ 0xDBFF then [0xFFFD]
    else if 0xDC00 ≤ c1 ∧ c1 ≤ 0xDFFF then [0xFFFD]
    else [c1]
  | c1 :: c2 :: rest2 =>
    if 0xD800 ≤ c1 ∧ c1 ≤ 0xDBFF then
      if 0xDC00 ≤ c2 ∧ c2 ≤ 0xDFFF then
        (0x10000 + (c1 - 0xD800) * 0x400 + (c2 - 0xDC00)) :: utf16ToCodePoints rest2
      else 0xFFFD :: utf16ToCodePoints (c2 :: rest2)
    else if 0xDC00 ≤ c1 ∧ c1 ≤ 0xDFFF then 0xFFFD :: utf16ToCodePoints (c2 :: rest2)
    else c1 :: utf16ToCodePoints (c2 :: rest2)

/-- UTF-8 encoding of one code point. -/
def utf8EncodeCodePoint (c : Nat) : List Nat :=
  if c < 0x80 then [c]
  else if c < 0x800 then [0xC0 + c / 64, 0x80 + c % 64]
  else if c < 0x10000 then [0xE0 + c / 4096, 0x80 + (c / 64) % 64, 0x80 + c % 64]
  else [0xF0 + c / 262144, 0x80 + (c / 4096) % 64, 0x80 + (c / 64) % 64, 0x80 + c % 64]

/-- `TextEncoder.encode` over UTF-16 code units. -/
def utf8Encode (s : List Nat) : List Nat :=
  ((utf16ToCodePoints s).map utf8EncodeCodePoint).flatten

/-- `VaultItemType` (vault.types.ts). -/
inductive VaultItemType where
  | password
  | note
  | card
  | identity
  | other
  deriving DecidableEq

/-- `VaultItem` (vault.types.ts), Base64 fields as decoded bytes. -/
structure VaultItem where
  id : List Nat
  name : List Nat
  nameIv : Option (List Nat)
  nameHmac : Option (List Nat)
  type : VaultItemType
  encryptedData : List Nat
  iv : List Nat
  hmac : List Nat
  timestamp : Int
  createdAt : Int
  updatedAt : Int
  deriving DecidableEq

/-- `VaultMetadata` (vault.types.ts). -/
structure VaultMetadata where
  itemCount : Nat
  lastModified : Int
  version : Nat
  deriving DecidableEq

/-- `VaultData` (vault.types.ts). -/
structure VaultData where
  metadata : VaultMetadata
  items : List VaultItem
  deriving DecidableEq

/-- `saveVaultData`: recomputes `lastModified` and `itemCount` before
persisting. -/
def saveVaultData (now : Int) (data : VaultData) : VaultData :=
  { data with metadata :=
    { data.metadata with lastModified := now, itemCount := data.items.length } }

/-- `VaultRepository.create`.  `JSON.stringify` over the content record
followed by `TextEncoder.encode` is the platform serialisation step,
abstracted as `serializeContent`; `generateId()` is the `id` argument; the
two independent `generateIV()` draws are `ivContent` and `ivName`; the
vault loaded by `loadVaultData` is `vault`, and the persisted vault is
returned alongside the created item. -/
def VaultRepository.create (H : HashFn) (serializeContent : List Nat → List Nat)
    (cachedKey : Option (List Nat)) (ivContent ivName : List Nat) (now : Int)
    (id : List Nat) (name : List Nat) (content : List Nat) (ty : VaultItemType)
    (vault : VaultData) : Except VaultError (VaultItem × VaultData) := do
  let sanitizedName ← validateName name
  let _ ← validateContent content
  let encryptedContent ←
    Except.mapError VaultError.encryptionFailed
      (encryptData H cachedKey ivContent now (serializeContent content))
  let encryptedName ←
    Except.mapError VaultError.encryptionFailed
      (encryptData H cachedKey ivName now (utf8Encode sanitizedName))
  let item : VaultItem :=
    { id := id, name := encryptedName.ciphertext,
      nameIv := some encryptedName.iv, nameHmac := some encryptedName.hmac,
      type := ty, encryptedData := encryptedContent.ciphertext,
      iv := encryptedContent.iv, hmac := encryptedContent.hmac,
      timestamp := encryptedContent.timestamp,
      createdAt := now, updatedAt := now }
  return (item, saveVaultData now { vault with items := vault.items ++ [item] })

/-! ## List and fold lemmas -/

theorem xorBytes_length (a b : List Nat) : (xorBytes a b).length = a.length := by
  simp [xorBytes]

theorem xorBytes_getElem (a b : List Nat) (i : Nat) (h : i < (xorBytes a b).length) :
    (xorBytes a b)[i] = a.getD i 0 ^^^ b.getD (i % b.length) 0 := by
  simp [xorBytes]

theorem getD_eq_getElem_of_lt (a : List Nat) (i : Nat) (h : i < a.length) :
    a.getD i 0 = a[i] := by
  simp [List.getD_eq_getElem?_getD, List.getElem?_eq_getElem h]

theorem xorBytes_xorBytes (a b : List Nat) : xorBytes (xorBytes a b) b = a := by
  apply List.ext_getElem
  · simp [xorBytes_length]
  · intro i h1 h2
    rw [xorBytes_getElem,
      getD_eq_getElem_of_lt (xorBytes a b) i (by rwa [xorBytes_length]),
      xorBytes_getElem, Nat.xor_assoc, Nat.xor_self, Nat.xor_zero,
      getD_eq_getElem_of_lt a i h2]

theorem encryptRound_length (H : HashFn) (ek iv data : List Nat) (r : Nat) :
    (encryptRound H ek iv data r).length = data.length := by
  simp [encryptRound, xorBytes_length]

theorem encryptRound_encryptRound (H : HashFn) (ek iv data : List Nat) (r : Nat) :
    encryptRound H ek iv (encryptRound H ek iv data r) r = data := by
  conv_lhs => rw [encryptRound, encryptRound_length]
  rw [encryptRound]
  exact xorBytes_xorBytes data _

theorem nat_or_eq_zero_iff (m n : Nat) : m ||| n = 0 ↔ m = 0 ∧ n = 0 := by
  constructor
  · intro h
    have hb : ∀ i, m.testBit i = false ∧ n.testBit i = false := by
      intro i
      have hi := congrArg (fun x => Nat.testBit x i) h
      simp only [Nat.testBit_or, Nat.zero_testBit, Bool.or_eq_false_iff] at hi
      exact hi
    exact ⟨Nat.zero_of_testBit_eq_false (fun i => (hb i).1),
      Nat.zero_of_testBit_eq_false (fun i => (hb i).2)⟩
  · rintro ⟨rfl, rfl⟩
    rfl

theorem foldl_or_count_fst (f : Nat → Nat) (l : List Nat) (x c : Nat) :
    (l.foldl (fun acc i => (acc.1 ||| f i, acc.2 + 1)) (x, c)).1 =
      l.foldl (fun y i => y ||| f i) x := by
  induction l generalizing x c with
  | nil => rfl
  | cons a t ih => simpa using ih (x ||| f a) (c + 1)

theorem foldl_or_count_snd (f : Nat → Nat) (l : List Nat) (x c : Nat) :
    (l.foldl (fun acc i => (acc.1 ||| f i, acc.2 + 1)) (x, c)).2 = c + l.length := by
  induction l generalizing x c with
  | nil => rfl
  | cons a t ih =>
    have := ih (x ||| f a) (c + 1)
    simp only [List.foldl_cons, this, List.length_cons]
    omega

theorem foldl_or_eq_zero_iff (f : Nat → Nat) (l : List Nat) (x : Nat) :
    l.foldl (fun y i => y ||| f i) x = 0 ↔ x = 0 ∧ ∀ i ∈ l, f i = 0 := by
  induction l generalizing x with
  | nil => simp
  | cons a t ih =>
    simp only [List.foldl_cons, ih (x ||| f a), nat_or_eq_zero_iff, List.mem_cons]
    constructor
    · rintro ⟨⟨hx, ha⟩, ht⟩
      exact ⟨hx, fun i hi => hi.elim (fun he => he ▸ ha) (ht i)⟩
    · rintro ⟨hx, h⟩
      exact ⟨⟨hx, h a (Or.inl rfl)⟩, fun i hi => h i (Or.inr hi)⟩

theorem hmacCompareLoop_fst_eq_zero_iff (a b : List Nat) :
    (hmacCompareLoop a b).1 = 0 ↔ ∀ i < a.length, a.getD i 0 = b.getD i 0 := by
  rw [hmacCompareLoop, foldl_or_count_fst, foldl_or_eq_zero_iff]
  simp only [List.mem_range, true_and]
  constructor
  · intro h i hi
    exact Nat.xor_eq_zero.mp (h i hi)
  · intro h i hi
    exact Nat.xor_eq_zero.mpr (h i hi)

theorem hmacCompareLoop_snd (a b : List Nat) :
    (hmacCompareLoop a b).2 = a.length := by
  rw [hmacCompareLoop, foldl_or_count_snd]
  simp

theorem hmacCompareLoop_fst_self (a : List Nat) : (hmacCompareLoop a a).1 = 0 :=
  (hmacCompareLoop_fst_eq_zero_iff a a).mpr (fun _ _ => rfl)

theorem hmacCompareLoop_fst_eq_zero_of_eq_length (a b : List Nat)
    (hlen : a.length = b.length) (h : (hmacCompareLoop a b).1 = 0) : a = b := by
  apply List.ext_getElem hlen
  intro i h1 h2
  have := (hmacCompareLoop_fst_eq_zero_iff a b).mp h i h1
  rwa [getD_eq_getElem_of_lt a i h1, getD_eq_getElem_of_lt b i h2] at this

theorem foldl_rounds_inverse (H : HashFn) (ek iv p : List Nat) :
    [2, 1, 0].foldl (encryptRound H ek iv) ([0, 1, 2].foldl (encryptRound H ek iv) p) = p := by
  simp only [List.foldl_cons, List.foldl_nil]
  rw [encryptRound_encryptRound, encryptRound_encryptRound, encryptRound_encryptRound]

/-- C1.  Round-trip: a blob produced by `encryptData` under a cached session
key decrypts, under the same cached key, to exactly the original plaintext,
for any digest backend, IV draw and timestamp. -/
theorem encryptData_decryptData_roundtrip (H : HashFn) (key iv : List Nat)
    (now : Int) (plaintextBytes : List Nat) (blob : EncryptedData)
    (henc : encryptData H (some key) iv now plaintextBytes = .ok blob) :
    decryptData H (some key) blob = .ok plaintextBytes := by
  by_cases hsz : MAX_DATA_SIZE < plaintextBytes.length
  · rw [encryptData, if_pos hsz] at henc
    exact absurd henc (by simp)
  · rw [encryptData, if_neg hsz] at henc
    injection henc with henc
    subst henc
    rw [decryptData]
    rw [if_neg (by simp), if_neg (by simp [hmacCompareLoop_fst_self])]
    exact congrArg Except.ok (foldl_rounds_inverse H _ iv plaintextBytes)

/-- C1 witness: a concrete encrypt/decrypt round trip under the sample
digest, key, IV and plaintext. -/
theorem encryptData_decryptData_roundtrip_witness :
    decryptData sampleHash (some sampleKey)
      (blobOf (encryptData sampleHash (some sampleKey) sampleIv 5 samplePlain)) =
      .ok samplePlain :=
  encryptData_decryptData_roundtrip sampleHash sampleKey sampleIv 5 samplePlain
    (blobOf (encryptData sampleHash (some sampleKey) sampleIv 5 samplePlain)) rfl

theorem flipBit_ne (l : List Nat) (i k : Nat) (hi : i < l.length) :
    flipBit l i k ≠ l := by
  intro heq
  have hg : (flipBit l i k).getD i 0 = l.getD i 0 := by rw [heq]
  have hset : (flipBit l i k).getD i 0 = l.getD i 0 ^^^ 2 ^ k := by
    rw [flipBit, getD_eq_getElem_of_lt _ i (by simpa using hi)]
    exact List.getElem_set_self _
  rw [hset] at hg
  have hz : (l.getD i 0 ^^^ 2 ^ k) ^^^ l.getD i 0 = 0 := Nat.xor_eq_zero.mpr hg
  rw [Nat.xor_comm (l.getD i 0) (2 ^ k), Nat.xor_assoc, Nat.xor_self, Nat.xor_zero] at hz
  exact absurd hz (by positivity)

theorem flipBit_length (l : List Nat) (i k : Nat) : (flipBit l i k).length = l.length := by
  simp [flipBit]

/-- Any blob whose recomputed tag disagrees with its carried tag is rejected
by `decryptData` with the integrity error (whether the disagreement is a
length mismatch or a byte mismatch). -/
theorem decryptData_fails_of_tag_ne (H : HashFn) (key : List Nat)
    (b : EncryptedData) (hne : hmacTag H key b.iv b.ciphertext ≠ b.hmac) :
    decryptData H (some key) b = .error .integrityCheckFailed := by
  rw [decryptData]
  by_cases hlen :
      (hmacSha256 H (hmacSha256 H key hmacKeyInfoBytes) (b.iv ++ b.ciphertext)).length =
        b.hmac.length
  · rw [if_neg (by simpa using hlen)]
    have hmm : (hmacCompareLoop
        (hmacSha256 H (hmacSha256 H key hmacKeyInfoBytes) (b.iv ++ b.ciphertext)) b.hmac).1 ≠ 0 := by
      intro h0
      exact hne (hmacCompareLoop_fst_eq_zero_of_eq_length _ _ hlen h0)
    rw [if_pos hmm]
  · rw [if_pos (by simpa using hlen)]

/-- C2.  Tamper detection: flipping any single bit of a produced blob's
ciphertext, IV or tag bytes makes `decryptData` fail with the integrity
error (for ciphertext/IV flips, under the assumption that the digest does
not collide on the two tag computations, which is the collision-resistance
property of the real HMAC-SHA-256 backend); no plaintext is returned. -/
theorem decryptData_tamper_detected (H : HashFn) (key iv : List Nat) (now : Int)
    (p : List Nat) (blob blob' : EncryptedData)
    (henc : encryptData H (some key) iv now p = .ok blob)
    (hcase :
      (((∃ i k, i < blob.ciphertext.length ∧ k < 8 ∧ blob' = flipCiphertextBit blob i k) ∨
        (∃ i k, i < blob.iv.length ∧ k < 8 ∧ blob' = flipIvBit blob i k)) ∧
        hmacTag H key blob'.iv blob'.ciphertext ≠ hmacTag H key blob.iv blob.ciphertext) ∨
      (∃ i k, i < blob.hmac.length ∧ k < 8 ∧ blob' = flipHmacBit blob i k)) :
    decryptData H (some key) blob' = .error .integrityCheckFailed := by
  have htag : hmacTag H key blob.iv blob.ciphertext = blob.hmac := by
    by_cases hsz : MAX_DATA_SIZE < p.length
    · rw [encryptData, if_pos hsz] at henc
      exact absurd henc (by simp)
    · rw [encryptData, if_neg hsz] at henc
      injection henc with henc
      subst henc
      rfl
  rcases hcase with ⟨hflip, hne⟩ | ⟨i, k, hi, hk, hb'⟩
  · have hhmac : blob'.hmac = blob.hmac := by
      rcases hflip with ⟨i, k, hi, hk, hb'⟩ | ⟨i, k, hi, hk, hb'⟩ <;> rw [hb'] <;> rfl
    apply decryptData_fails_of_tag_ne
    rw [hhmac, ← htag]
    exact hne
  · apply decryptData_fails_of_tag_ne
    rw [hb']
    show hmacTag H key blob.iv blob.ciphertext ≠ flipBit blob.hmac i k
    rw [htag]
    exact (flipBit_ne blob.hmac i k hi).symm

set_option maxRecDepth 100000 in
/-- C2 witness: flipping the lowest bit of the first ciphertext byte of a
concretely produced blob is rejected with the integrity error. -/
theorem decryptData_tamper_detected_witness :
    decryptData sampleHash (some sampleKey)
      (flipCiphertextBit
        (blobOf (encryptData sampleHash (some sampleKey) sampleIv 5 samplePlain)) 0 0) =
      .error .integrityCheckFailed :=
  decryptData_tamper_detected sampleHash sampleKey sampleIv 5 samplePlain
    (blobOf (encryptData sampleHash (some sampleKey) sampleIv 5 samplePlain))
    (flipCiphertextBit
      (blobOf (encryptData sampleHash (some sampleKey) sampleIv 5 samplePlain)) 0 0)
    rfl
    (Or.inl ⟨Or.inl ⟨0, 0, by decide, by decide, rfl⟩, by decide⟩)

/-- C3.  DoS guard ordering: a plaintext over 10 MiB is rejected with the
size error before the session-key cache is consulted — for every cache
state, including an empty cache, the result is the size error, not the
no-key error, and (the function being pure) nothing is written or mutated. -/
theorem encryptData_size_guard_first (H : HashFn) (cachedKey : Option (List Nat))
    (iv : List Nat) (now : Int) (plaintextBytes : List Nat)
    (hbig : MAX_DATA_SIZE < plaintextBytes.length) :
    encryptData H cachedKey iv now plaintextBytes = .error .dataTooLarge := by
  rw [encryptData.eq_def, if_pos hbig]

/-- C3 witness: a 10 MiB + 1 byte plaintext is rejected with the size error
even though the key cache is empty. -/
theorem encryptData_size_guard_first_witness :
    encryptData sampleHash none sampleIv 5 (List.replicate (MAX_DATA_SIZE + 1) 0) =
      .error .dataTooLarge :=
  encryptData_size_guard_first sampleHash none sampleIv 5
    (List.replicate (MAX_DATA_SIZE + 1) 0)
    (by rw [List.length_replicate]; exact Nat.lt_succ_self _)

/-- C4 counterexample: for a truncated provided tag (length 0 against the
32-byte computed tag), `decryptData`'s comparison executes zero iterations
(the length mismatch is an early rejection), not the max-length amount of
work the claim describes. -/
theorem tagCompareWork_counterexample :
    tagCompareWork (List.replicate 32 0) [] ≠ specTagCompareWork (List.replicate 32 0) [] := by
  decide

/-- C4 amended.  `decryptData` only returns plaintext when the recomputed
tag equals the carried tag (verification happens before inversion and fails
closed); over equal-length buffers the comparison loop always executes
exactly the full tag length of iterations, independent of contents; but a
provided tag of a different length is rejected by an early length check
that performs no byte-comparison work at all. -/
theorem decryptData_tag_check_amended (H : HashFn) (key : List Nat) :
    (∀ blob m, decryptData H (some key) blob = .ok m →
        hmacTag H key blob.iv blob.ciphertext = blob.hmac)
    ∧ (∀ a b : List Nat, a.length = b.length → tagCompareWork a b = a.length)
    ∧ (∀ a b : List Nat, a.length ≠ b.length → tagCompareWork a b = 0) := by
  refine ⟨?_, ?_, ?_⟩
  · intro blob m h
    by_contra hne
    rw [decryptData_fails_of_tag_ne H key blob hne] at h
    exact absurd h (by simp)
  · intro a b hl
    rw [tagCompareWork, if_neg (by simpa using hl), hmacCompareLoop_snd]
  · intro a b hl
    rw [tagCompareWork, if_pos hl]

set_option maxRecDepth 100000 in
/-- C4 witness: on a concretely produced blob the successful decryption
implies the tag equality; a 32-vs-32 comparison does 32 iterations whatever
the contents, and a 32-vs-0 length mismatch does none. -/
theorem decryptData_tag_check_amended_witness :
    hmacTag sampleHash sampleKey
        (blobOf (encryptData sampleHash (some sampleKey) sampleIv 5 samplePlain)).iv
        (blobOf (encryptData sampleHash (some sampleKey) sampleIv 5 samplePlain)).ciphertext =
      (blobOf (encryptData sampleHash (some sampleKey) sampleIv 5 samplePlain)).hmac
    ∧ tagCompareWork (List.replicate 32 0) (List.replicate 32 255) = 32
    ∧ tagCompareWork (List.replicate 32 0) [] = 0 :=
  ⟨(decryptData_tag_check_amended sampleHash sampleKey).1
      (blobOf (encryptData sampleHash (some sampleKey) sampleIv 5 samplePlain))
      samplePlain rfl,
    (decryptData_tag_check_amended sampleHash sampleKey).2.1
      (List.replicate 32 0) (List.replicate 32 255) (by decide),
    (decryptData_tag_check_amended sampleHash sampleKey).2.2
      (List.replicate 32 0) [] (by decide)⟩

theorem calculateBackoffDelay_le (c : Nat) : calculateBackoffDelay c ≤ 30000 := by
  rw [calculateBackoffDelay]
  split
  · norm_num
  · exact min_le_right _ _

/-- C5.  Reset-window precedence: once more than 30 minutes have passed
since `firstAttemptAt`, `checkBruteForce` deletes the record and allows the
attempt with 5 remaining attempts and no delay, whatever the rest of the
record — in particular even while `lockedUntil` is still in the future. -/
theorem checkBruteForce_reset_window_precedence (now : Int) (data : AttemptData)
    (hwin : ATTEMPT_RESET_WINDOW_MS < now - data.firstAttemptAt) :
    checkBruteForce now (some data) =
      ({ allowed := true, remainingAttempts := MAX_ATTEMPTS_BEFORE_LOCKOUT,
         lockoutSecondsRemaining := none, requiredDelayMs := 0 }, none) := by
  rw [checkBruteForce, if_pos hwin]

/-- C5 witness: a record still locked until the future (t=3,000,000) is
wiped and allowed at t=2,000,000 because its window started at t=0. -/
theorem checkBruteForce_reset_window_precedence_witness :
    checkBruteForce 2000000
        (some { count := 5, firstAttemptAt := 0, lastAttemptAt := 1999000,
                lockedUntil := some 3000000 }) =
      ({ allowed := true, remainingAttempts := 5,
         lockoutSecondsRemaining := none, requiredDelayMs := 0 }, none) :=
  checkBruteForce_reset_window_precedence 2000000
    { count := 5, firstAttemptAt := 0, lastAttemptAt := 1999000,
      lockedUntil := some 3000000 } (by decide)

/-- C6.  Backoff formula: for an unlocked record inside the reset window,
the attempt is denied exactly when less time than the backoff delay has
elapsed since `lastAttemptAt`, and the source's backoff delay agrees with
the spec's formula `min(30s, 1000ms × 2^(count-2))` (0 for `count ≤ 1`). -/
theorem checkBruteForce_backoff (now : Int) (data : AttemptData)
    (_hcount : 1 ≤ data.count) (hnl : data.lockedUntil = none)
    (hwin : now - data.firstAttemptAt ≤ ATTEMPT_RESET_WINDOW_MS) :
    ((checkBruteForce now (some data)).1.allowed = false ↔
      now - data.lastAttemptAt < calculateBackoffDelay data.count)
    ∧ calculateBackoffDelay data.count = specBackoffDelay data.count := by
  constructor
  · rw [checkBruteForce, if_neg (not_lt.mpr hwin), hnl]
    show (checkBackoff now data (some data)).1.allowed = false ↔ _
    rw [checkBackoff]
    have hiff : ((0:Int) < max 0 (calculateBackoffDelay data.count - (now - data.lastAttemptAt))) ↔
        now - data.lastAttemptAt < calculateBackoffDelay data.count := by
      rw [lt_max_iff]
      omega
    split
    next h => exact iff_of_true rfl (hiff.mp h)
    next h => exact iff_of_false (by simp) (fun hlt => h (hiff.mpr hlt))
  · rw [calculateBackoffDelay, specBackoffDelay]
    by_cases hc : data.count ≤ 1
    · rw [if_pos hc, if_neg (by omega)]
    · rw [if_neg hc, if_pos (by omega), min_comm]

/-- C6 witness: at count 3 with 1000 ms elapsed against a 2000 ms backoff,
the denial condition is exactly "elapsed < delay", and the source formula
matches the spec formula. -/
theorem checkBruteForce_backoff_witness :
    ((checkBruteForce 10000
        (some { count := 3, firstAttemptAt := 0, lastAttemptAt := 9000,
                lockedUntil := none })).1.allowed = false ↔
      (10000 : Int) - 9000 < calculateBackoffDelay 3)
    ∧ calculateBackoffDelay 3 = specBackoffDelay 3 :=
  checkBruteForce_backoff 10000
    { count := 3, firstAttemptAt := 0, lastAttemptAt := 9000, lockedUntil := none }
    (by decide) rfl (by decide)

/-- C7.  Lockout expiry: once `lockedUntil` (which `recordFailedAttempt`
always sets to `lastAttemptAt + 5 min`) has elapsed while the reset window
has not, `checkBruteForce` persists the record with `lockedUntil` cleared
and `count` untouched, and allows the attempt (the 5-minute lockout always
exceeds the 30-second backoff cap). -/
theorem checkBruteForce_lock_expired (now : Int) (data : AttemptData) (lu : Int)
    (hlu : data.lockedUntil = some lu)
    (hinv : lu = data.lastAttemptAt + LOCKOUT_DURATION_MS)
    (hlast : 0 ≤ data.lastAttemptAt)
    (hexp : lu ≤ now)
    (hwin : now - data.firstAttemptAt ≤ ATTEMPT_RESET_WINDOW_MS) :
    checkBruteForce now (some data) =
      ({ allowed := true, remainingAttempts := MAX_ATTEMPTS_BEFORE_LOCKOUT - data.count,
         lockoutSecondsRemaining := none, requiredDelayMs := 0 },
        some { data with lockedUntil := none }) := by
  rw [show LOCKOUT_DURATION_MS = 300000 from rfl] at hinv
  rw [checkBruteForce, if_neg (not_lt.mpr hwin)]
  have hd : calculateBackoffDelay data.count ≤ 30000 := calculateBackoffDelay_le _
  split
  next lu' heq =>
    rw [hlu] at heq
    injection heq with heq
    subst heq
    rw [if_pos (show lu ≠ 0 by omega), if_neg (not_lt.mpr hexp), checkBackoff]
    rw [if_neg (by rw [lt_max_iff]; omega)]
  next heq =>
    rw [hlu] at heq
    cases heq

/-- C7 witness: a count-5 record locked until t=300,000 is unlocked at that
time with its count preserved in the persisted record. -/
theorem checkBruteForce_lock_expired_witness :
    checkBruteForce 300000
        (some { count := 5, firstAttemptAt := 0, lastAttemptAt := 0,
                lockedUntil := some 300000 }) =
      ({ allowed := true, remainingAttempts := 0,
         lockoutSecondsRemaining := none, requiredDelayMs := 0 },
        some { count := 5, firstAttemptAt := 0, lastAttemptAt := 0,
               lockedUntil := none }) :=
  checkBruteForce_lock_expired 300000
    { count := 5, firstAttemptAt := 0, lastAttemptAt := 0, lockedUntil := some 300000 }
    300000 rfl (by decide) (by decide) (by decide) (by decide)

/-- C8.  `recordFailedAttempt` invariants: with no record or an expired
30-minute window the persisted record is reset to count 1 with fresh
`firstAttemptAt` and null `lockedUntil`; and the persisted `lockedUntil`
is non-null exactly when the stored count has reached the threshold 5, in
which case its value is `now + 5 min`. -/
theorem recordFailedAttempt_invariants (now : Int) (store : Option AttemptData) :
    ((store = none ∨
        ∃ ed, store = some ed ∧ ATTEMPT_RESET_WINDOW_MS < now - ed.firstAttemptAt) →
      (recordFailedAttempt now store).1 =
        { count := 1, firstAttemptAt := now, lastAttemptAt := now, lockedUntil := none })
    ∧ ((recordFailedAttempt now store).1.lockedUntil ≠ none ↔
        MAX_ATTEMPTS_BEFORE_LOCKOUT ≤ (recordFailedAttempt now store).1.count)
    ∧ (∀ lu, (recordFailedAttempt now store).1.lockedUntil = some lu →
        lu = now + LOCKOUT_DURATION_MS) := by
  rcases store with _ | ed
  · exact ⟨fun _ => rfl, by simp [recordFailedAttempt, MAX_ATTEMPTS_BEFORE_LOCKOUT],
      by simp [recordFailedAttempt]⟩
  · by_cases hw : ATTEMPT_RESET_WINDOW_MS < now - ed.firstAttemptAt
    · refine ⟨fun _ => by simp [recordFailedAttempt, if_pos hw],
        by simp [recordFailedAttempt, if_pos hw, MAX_ATTEMPTS_BEFORE_LOCKOUT],
        by simp [recordFailedAttempt, if_pos hw]⟩
    · refine ⟨?_, ?_, ?_⟩
      · rintro (h | ⟨ed', hed, hw'⟩)
        · cases h
        · injection hed with hed
          subst hed
          exact absurd hw' hw
      · by_cases hc : MAX_ATTEMPTS_BEFORE_LOCKOUT ≤ ed.count + 1 <;>
          simp [recordFailedAttempt, if_neg hw, hc]
      · intro lu hlu
        by_cases hc : MAX_ATTEMPTS_BEFORE_LOCKOUT ≤ ed.count + 1 <;>
          simp [recordFailedAttempt, if_neg hw, hc] at hlu
        omega

/-- C8 witness: an expired-window record resets to a fresh count-1 record,
and a 4-count record inside the window locks at count 5 with
`lockedUntil = now + 300000`. -/
theorem recordFailedAttempt_invariants_witness :
    (recordFailedAttempt 2000000
        (some { count := 3, firstAttemptAt := 0, lastAttemptAt := 10,
                lockedUntil := none })).1 =
      { count := 1, firstAttemptAt := 2000000, lastAttemptAt := 2000000,
        lockedUntil := none }
    ∧ ((recordFailedAttempt 50000
        (some { count := 4, firstAttemptAt := 0, lastAttemptAt := 40000,
                lockedUntil := none })).1.lockedUntil ≠ none ↔
      MAX_ATTEMPTS_BEFORE_LOCKOUT ≤ (recordFailedAttempt 50000
        (some { count := 4, firstAttemptAt := 0, lastAttemptAt := 40000,
                lockedUntil := none })).1.count)
    ∧ ((recordFailedAttempt 50000
        (some { count := 4, firstAttemptAt := 0, lastAttemptAt := 40000,
                lockedUntil := none })).1.lockedUntil = some 350000 →
        (350000 : Int) = 50000 + LOCKOUT_DURATION_MS) :=
  ⟨(recordFailedAttempt_invariants 2000000
      (some { count := 3, firstAttemptAt := 0, lastAttemptAt := 10,
              lockedUntil := none })).1
      (Or.inr ⟨_, rfl, by decide⟩),
    (recordFailedAttempt_invariants 50000
      (some { count := 4, firstAttemptAt := 0, lastAttemptAt := 40000,
              lockedUntil := none })).2.1,
    fun h => (recordFailedAttempt_invariants 50000
      (some { count := 4, firstAttemptAt := 0, lastAttemptAt := 40000,
              lockedUntil := none })).2.2 350000 h⟩

/-- C9.  Divergence at the failing input: with another biometric operation
in flight, `enableBiometric` of `src/src/security/useBiometric.ts` runs to
completion — it returns `true` and writes both the key and the config to
storage — whereas the claimed (and spec'd) behaviour, implemented by the
repository's guarded variant of the hook, is to return `false` immediately
with storage untouched. -/
theorem enableBiometric_inflight_divergence :
    enableBiometricNoGuard true c9Env 7 c9Store =
      (true, { biometricKey := some (List.range 32),
               biometricConfig :=
                 some { enabled := true, type := .fingerprint, lastUsed := some 7 } })
    ∧ (enableBiometricNoGuard true c9Env 7 c9Store).2 ≠ c9Store
    ∧ enableBiometricGuarded true c9Env 7 c9Store = (false, c9Store) :=
  ⟨rfl, by decide, rfl⟩

theorem dropWhile_eq_self_of_not (p : Nat → Bool) (l : List Nat)
    (h : ∀ c ∈ l, p c = false) : l.dropWhile p = l := by
  cases l with
  | nil => rfl
  | cons a t =>
    rw [List.dropWhile_cons, h a (List.mem_cons_self a t)]
    simp

theorem encryptData_ok (H : HashFn) (key iv : List Nat) (now : Int) (p : List Nat)
    (hsz : p.length ≤ MAX_DATA_SIZE) :
    encryptData H (some key) iv now p = .ok
      { ciphertext := [0, 1, 2].foldl (encryptRound H (deriveEncryptionKey H key iv) iv) p,
        iv := iv,
        hmac := hmacSha256 H (hmacSha256 H key hmacKeyInfoBytes)
          (iv ++ [0, 1, 2].foldl (encryptRound H (deriveEncryptionKey H key iv) iv) p),
        timestamp := now } := by
  rw [encryptData, if_neg (not_lt.mpr hsz)]

/-- C10.  A non-empty name made only of non-whitespace control characters
passes `validateName` (it survives `trim` untouched and is then stripped to
the empty string), so `VaultRepository.create` succeeds and stores, as the
item's name, the ciphertext of an encryption of the empty string. -/
theorem create_control_name_empty (H : HashFn) (serializeContent : List Nat → List Nat)
    (key ivContent ivName : List Nat) (now : Int) (id : List Nat)
    (name content : List Nat) (ty : VaultItemType) (vault : VaultData)
    (hne : name ≠ [])
    (hctrl : ∀ c ∈ name, isStrippedControl c = true ∧ isJsWhitespace c = false)
    (hnlen : name.length ≤ MAX_NAME_LENGTH)
    (hclen : content.length ≤ MAX_CONTENT_LENGTH)
    (hser : (serializeContent content).length ≤ MAX_DATA_SIZE) :
    validateName name = .ok []
    ∧ ∃ item vd,
        VaultRepository.create H serializeContent (some key) ivContent ivName now
          id name content ty vault = .ok (item, vd)
        ∧ item.name = (blobOf (encryptData H (some key) ivName now [])).ciphertext := by
  have htrim : jsTrim name = name := by
    rw [jsTrim, dropWhile_eq_self_of_not _ name (fun c hc => (hctrl c hc).2),
      dropWhile_eq_self_of_not _ name.reverse
        (fun c hc => (hctrl c (List.mem_reverse.mp hc)).2),
      List.reverse_reverse]
  have hv : validateName name = .ok [] := by
    rw [validateName, if_neg (by simpa [List.isEmpty_iff] using hne)]
    simp only [htrim]
    rw [if_neg (fun h => hne (List.length_eq_zero.mp h)), if_neg (not_lt.mpr hnlen)]
    congr 1
    rw [List.filter_eq_nil_iff]
    intro c hc
    simp [(hctrl c hc).1]
  have hvc : validateContent content = .ok () := by
    rw [validateContent, if_neg (not_lt.mpr hclen)]
  have hC := encryptData_ok H key ivContent now (serializeContent content) hser
  have hN := encryptData_ok H key ivName now [] (by norm_num [MAX_DATA_SIZE])
  refine ⟨hv, ?_⟩
  simp only [VaultRepository.create, hv, hvc, hC,
    show utf8Encode ([] : List Nat) = [] from rfl, hN, Except.mapError,
    Bind.bind, Except.bind, Except.pure, pure]
  exact ⟨_, _, rfl, rfl⟩

/-- C10 witness: the name `[0x01]` (a single non-whitespace control
character) validates to the empty sanitized name and `create` succeeds,
storing an encryption of the empty string as the item name. -/
theorem create_control_name_empty_witness :
    validateName [1] = .ok []
    ∧ ∃ item vd,
        VaultRepository.create sampleHash (fun l => l) (some sampleKey) sampleIv
          sampleIv 5 [97] [1] [104, 105] .other
          { metadata := { itemCount := 0, lastModified := 0, version := 1 },
            items := [] } = .ok (item, vd)
        ∧ item.name = (blobOf (encryptData sampleHash (some sampleKey) sampleIv 5 [])).ciphertext :=
  create_control_name_empty sampleHash (fun l => l) sampleKey sampleIv sampleIv 5
    [97] [1] [104, 105] .other
    { metadata := { itemCount := 0, lastModified := 0, version := 1 }, items := [] }
    (by decide) (by decide) (by decide) (by decide) (by decide)
